import Mathlib

/-!
Verification of the self-healing codebase workflow
(notebook: all_agents_tutorials/memory_management.ipynb, second document,
"Memory: A Deep Dive: Practical Implementation (Self Healing Codebase)").

The Python program drives a cyclic LangGraph workflow over a pydantic
State: run_code invokes the stored callable with the stored arguments,
and on failure the graph routes through bug_report_node,
memory_search_node, memory_modification_node / memory_generation_node,
update_code and fix_code back to run_code.

Shallow embedding choices:
* a Python callable is a total Lean function returning Except, where
  Except.error e models a raised exception with str(e) = e;
* the LLM client and Python exec are external effects; they are
  abstracted as fields of an Env record, every node takes the Env;
* the values the LLM can place in memory_indexes_to_update after
  json.loads are modelled by PyVal: an integer, or a non-integer JSON
  value (pyNonInt), which raises TypeError when used as a list index;
* Python list indexing (negative wraparound, IndexError out of range)
  is modelled by pyNorm;
* a node that raises an uncaught exception is modelled as returning
  none; the graph driver then yields none (the run crashes).
-/

namespace SelfHealing

/-- A Python callable: takes the argument list, returns a value or the
string description of a raised exception. -/
abbrev Func : Type := List Int → Except String Int

/-- A JSON value stored in memory_indexes_to_update by json.loads:
either an integer or some non-integer value (abstracted by a tag). -/
inductive PyVal where
  | pyInt (i : Int)
  | pyNonInt (tag : String)
deriving DecidableEq

/-- External effects of the notebook: the five llm.invoke call sites
(one per node that prompts the model) and Python exec. searchIdx is
the json.loads-parsed list from memory_search_node's response; exec
maps a source text to the namespace dict it defines (an association
list of names to callables) or to a raised exception. -/
structure Env where
  bugReport : String → String → String
  searchIdx : String → List String → List PyVal
  genMemory : String → String
  modMemory : String → String → String
  fixFor : String → String → String
  exec : String → Except String (List (String × Func))

/-- The pydantic State of the notebook, field for field. -/
structure State where
  function : Func
  function_string : String
  arguments : List Int
  error : Bool
  error_description : String := ""
  new_function_string : String := ""
  bug_report : String := ""
  memories : List String := []
  memory_indexes_to_update : List PyVal := []

/-- run_code: try result = state.function(*state.arguments); on
exception set error and error_description; return state. On success
nothing is assigned (the result is discarded). -/
def run_code (s : State) : State :=
  match s.function s.arguments with
  | Except.ok _ => s
  | Except.error e => { s with error := true, error_description := e }

/-- update_code: ask the model for a replacement definition and store
it in new_function_string. -/
def update_code (env : Env) (s : State) : State :=
  { s with new_function_string := env.fixFor s.function_string s.error_description }

/-- fix_code: exec the new function text in a fresh namespace, look up
the hardcoded name 'divide_two_numbers', and on success install the
callable and set error to False; any exception (from exec or from the
KeyError of the lookup) is caught and the state returned unchanged. -/
def fix_code (env : Env) (s : State) : State :=
  match env.exec s.new_function_string with
  | Except.error _ => s
  | Except.ok ns =>
    match ns.lookup "divide_two_numbers" with
    | none => s
    | some new_divide => { s with function := new_divide, error := false }

/-- bug_report_node: store the model's bug report. -/
def bug_report_node (env : Env) (s : State) : State :=
  { s with bug_report := env.bugReport s.function_string s.error_description }

/-- memory_search_node: store the json.loads-parsed index list from the
model verbatim in memory_indexes_to_update (no validation). -/
def memory_search_node (env : Env) (s : State) : State :=
  { s with memory_indexes_to_update := env.searchIdx s.bug_report s.memories }

/-- memory_generation_node: append the model's new memory string. -/
def memory_generation_node (env : Env) (s : State) : State :=
  { s with memories := s.memories ++ [env.genMemory s.bug_report] }

/-- Python list-index normalization: a negative index wraps by the
length; an index out of [-len, len) raises IndexError (none). -/
def pyNorm (len : Nat) (i : Int) : Option Nat :=
  let j : Int := if i < 0 then i + len else i
  if 0 ≤ j ∧ j < len then some j.toNat else none

/-- memory_modification_node: pop(0) the front of
memory_indexes_to_update (IndexError on an empty list), index memories
with it (TypeError on a non-integer, IndexError out of range), ask the
model for the updated memory and assign it back at the same index.
none models the uncaught exception. -/
def memory_modification_node (env : Env) (s : State) : Option State :=
  match s.memory_indexes_to_update with
  | [] => none
  | v :: rest =>
    match v with
    | PyVal.pyNonInt _ => none
    | PyVal.pyInt i =>
      match pyNorm s.memories.length i with
      | none => none
      | some j =>
        let memory_to_update := s.memories.getD j ""
        let response := env.modMemory s.bug_report memory_to_update
        some { s with memory_indexes_to_update := rest,
                      memories := s.memories.set j response }

/-- Node names of the compiled graph. -/
inductive NodeId where
  | run_code
  | update_code
  | fix_code
  | bug_report_node
  | memory_search_node
  | memory_modification_node
  | memory_generation_node
deriving DecidableEq

/-- A router decision: continue to a node, or END. -/
inductive Next where
  | node (k : NodeId)
  | done
deriving DecidableEq

/-- error_router: on error go to bug_report_node, else END. -/
def error_router (s : State) : Next :=
  if s.error then Next.node NodeId.bug_report_node else Next.done

/-- modification_router: a non-empty pending list goes to
memory_modification_node, an empty one to memory_generation_node. -/
def modification_router (s : State) : Next :=
  if s.memory_indexes_to_update ≠ [] then Next.node NodeId.memory_modification_node
  else Next.node NodeId.memory_generation_node

/-- update_memory router: a non-empty pending list re-enters
memory_modification_node, an empty one goes to update_code. -/
def update_memory (s : State) : Next :=
  if s.memory_indexes_to_update ≠ [] then Next.node NodeId.memory_modification_node
  else Next.node NodeId.update_code

/-- One superstep of the graph: run the node named k on s, then follow
its conditional or unconditional edge, exactly as wired by the
builder.add_node / add_edge / add_conditional_edges calls. none models
an uncaught exception escaping the node. -/
def step (env : Env) (k : NodeId) (s : State) : Option (Next × State) :=
  match k with
  | NodeId.run_code =>
    let t := run_code s
    some (error_router t, t)
  | NodeId.bug_report_node =>
    let t := bug_report_node env s
    some (Next.node NodeId.memory_search_node, t)
  | NodeId.memory_search_node =>
    let t := memory_search_node env s
    some (modification_router t, t)
  | NodeId.memory_generation_node =>
    let t := memory_generation_node env s
    some (Next.node NodeId.update_code, t)
  | NodeId.memory_modification_node =>
    match memory_modification_node env s with
    | none => none
    | some t => some (update_memory t, t)
  | NodeId.update_code =>
    let t := update_code env s
    some (Next.node NodeId.fix_code, t)
  | NodeId.fix_code =>
    let t := fix_code env s
    some (Next.node NodeId.run_code, t)

/-- Modelled from the spec: the graph executor loop of section 4.1 (the
LangGraph driver itself is an external dependency, not in the
repository): starting from a configuration, repeatedly invoke the
current node and its router until a terminal decision; a configuration
that has reached END is returned as is; an uncaught node exception
aborts the run (none). runSteps env n c performs at most n supersteps. -/
def runSteps (env : Env) : Nat → Next × State → Option (Next × State)
  | 0, c => some c
  | n+1, c =>
    match c with
    | (Next.done, s) => some (Next.done, s)
    | (Next.node k, s) =>
      match step env k s with
      | none => none
      | some c2 => runSteps env n c2

/-- The initial State built by run_self_healing_code_system: error is
False, the remaining fields take their declared defaults;
function_string is inspect.getsource(function), taken as a parameter. -/
def initState (function : Func) (function_string : String) (arguments : List Int) : State :=
  { function := function, function_string := function_string,
    arguments := arguments, error := false }

/-- A callable that succeeds on every argument list. -/
def okFn : Func := fun _ => Except.ok 7

/-- A callable that raises on every argument list (str(e) fixed). -/
def failFn : Func := fun _ => Except.error "division by zero"

/-- A callable standing for a repaired divide_two_numbers. -/
def goodFn : Func := fun _ => Except.ok 5

/-- A callable standing for a repaired add_numbers. -/
def addFn : Func := fun _ => Except.ok 3

/-- An Env whose fix text loads a working divide_two_numbers. -/
def fixEnv : Env :=
  { bugReport := fun _ _ => "bug report"
    searchIdx := fun _ _ => []
    genMemory := fun _ => "memory"
    modMemory := fun _ _ => "updated memory"
    fixFor := fun _ _ => "def divide_two_numbers(a, b): ..."
    exec := fun _ => Except.ok [("divide_two_numbers", goodFn)] }

/-- A failing run state whose pending fix text is already stored. -/
def c3State : State :=
  { function := failFn
    function_string := "def divide_two_numbers(a, b): return a / b"
    arguments := [10, 0]
    error := true
    error_description := "division by zero"
    new_function_string := "def divide_two_numbers(a, b): ..." }

/-- A state whose stored callable succeeds but whose error flag and
description are still set from an earlier failure. -/
def c6State : State :=
  { function := okFn
    function_string := "def divide_two_numbers(a, b): return a / b"
    arguments := [10, 2]
    error := true
    error_description := "boom" }

/-- A state whose stored callable raises on the stored arguments. -/
def c9State : State :=
  { function := failFn
    function_string := "def divide_two_numbers(a, b): return a / b"
    arguments := [10, 0]
    error := false
    memories := ["# divide_two_numbers ## ZeroDivisionError ### analysis"] }

/-- An Env whose exec defines a function named add_numbers, not
divide_two_numbers. -/
def c4Env : Env :=
  { bugReport := fun _ _ => "bug report"
    searchIdx := fun _ _ => []
    genMemory := fun _ => "memory"
    modMemory := fun _ _ => "updated memory"
    fixFor := fun _ _ => "def add_numbers(a, b): ..."
    exec := fun _ => Except.ok [("add_numbers", addFn)] }

/-- A failing run state whose target operation is named add_numbers. -/
def c4State : State :=
  { function := failFn
    function_string := "def add_numbers(a, b): return a + b"
    arguments := [1, 2]
    error := true
    error_description := "unsupported operand type"
    new_function_string := "def add_numbers(a, b): ..." }

/-- C6 counterexample: a successful invocation does not clear the
failure flag or the failure description — run_code leaves both stale. -/
theorem run_code_success_keeps_stale_flag :
    c6State.function c6State.arguments = Except.ok 7 ∧
    (run_code c6State).error = true ∧
    (run_code c6State).error_description = "boom" :=
  ⟨rfl, rfl, rfl⟩

/-- C6 (amended): when invoking the stored operation with the stored
arguments succeeds, run_code returns the state completely unchanged —
in particular the failure flag and description keep their previous
values and the operation is the same as before. -/
theorem run_code_success_leaves_state_unchanged (s : State) (v : Int)
    (h : s.function s.arguments = Except.ok v) : run_code s = s := by
  simp [run_code, h]

/-- C6 witness: at c6State the invocation succeeds and run_code is the
identity. -/
theorem run_code_success_leaves_state_unchanged_witness :
    run_code c6State = c6State :=
  run_code_success_leaves_state_unchanged c6State 7 rfl

/-- C9: when invoking the stored operation raises, run_code returns the
state with the failure flag set and the error's description stored,
and the argument list, the operation and the memory store unchanged. -/
theorem run_code_failure_sets_flag (s : State) (e : String)
    (h : s.function s.arguments = Except.error e) :
    run_code s = { s with error := true, error_description := e } ∧
    (run_code s).arguments = s.arguments ∧
    (run_code s).function = s.function ∧
    (run_code s).memories = s.memories := by
  have h1 : run_code s = { s with error := true, error_description := e } := by
    simp [run_code, h]
  exact ⟨h1, by rw [h1], by rw [h1], by rw [h1]⟩

/-- C9 witness: at c9State the invocation raises and run_code stores
the description while leaving arguments, operation and memories. -/
theorem run_code_failure_sets_flag_witness :
    run_code c9State =
      { c9State with error := true, error_description := "division by zero" } ∧
    (run_code c9State).arguments = c9State.arguments ∧
    (run_code c9State).function = c9State.function ∧
    (run_code c9State).memories = c9State.memories :=
  run_code_failure_sets_flag c9State "division by zero" rfl

/-- C3 counterexample: fix_code resets the failure flag from true to
false without any re-invocation of the operation, so a step other than
a successful re-invocation by run_code clears the flag. -/
theorem fix_code_resets_flag_counterexample :
    c3State.error = true ∧ (fix_code fixEnv c3State).error = false :=
  ⟨rfl, rfl⟩

/-- C3 (amended): run_code sets the failure flag on a raised error and
leaves it unchanged on success; the flag is reset to false by a
successful fix application (exec succeeds and the hardcoded symbol
divide_two_numbers is extracted), not by re-invocation. -/
theorem error_flag_lifecycle :
    (∀ s e, s.function s.arguments = Except.error e → (run_code s).error = true) ∧
    (∀ s v, s.function s.arguments = Except.ok v → (run_code s).error = s.error) ∧
    (∀ env s ns f, env.exec s.new_function_string = Except.ok ns →
      ns.lookup "divide_two_numbers" = some f → (fix_code env s).error = false) := by
  refine ⟨?_, ?_, ?_⟩
  · intro s e h
    simp [run_code, h]
  · intro s v h
    simp [run_code, h]
  · intro env s ns f h1 h2
    simp [fix_code, h1, h2]

/-- C3 witness: at c3State, fix application alone drives the flag to
false. -/
theorem error_flag_lifecycle_witness : (fix_code fixEnv c3State).error = false :=
  error_flag_lifecycle.2.2 fixEnv c3State [("divide_two_numbers", goodFn)] goodFn rfl rfl

/-- C4 counterexample: the target operation is named add_numbers and
exec yields a namespace binding add_numbers to a callable, so
extraction by the original operation's name would succeed; yet
fix_code looks up the hardcoded name divide_two_numbers, fails, and
leaves the state (in particular the operation) unchanged. -/
theorem fix_code_ignores_original_name_counterexample :
    c4Env.exec c4State.new_function_string = Except.ok [("add_numbers", addFn)] ∧
    [("add_numbers", addFn)].lookup "add_numbers" = some addFn ∧
    fix_code c4Env c4State = c4State ∧
    c4State.function ≠ addFn := by
  refine ⟨rfl, rfl, rfl, ?_⟩
  intro h
  have h2 := congrArg (fun f => f []) h
  simp [c4State, failFn, addFn] at h2

/-- C4 (amended): fix_code loads the pending fix text into a fresh
namespace and extracts the hardcoded symbol divide_two_numbers —
irrespective of the original operation's name; only when that
extraction succeeds does it replace the operation (also clearing the
failure flag); when loading raises or the lookup fails the state is
returned unchanged. -/
theorem fix_code_extraction_spec (env : Env) (s : State) :
    (∀ err, env.exec s.new_function_string = Except.error err → fix_code env s = s) ∧
    (∀ ns, env.exec s.new_function_string = Except.ok ns →
      ns.lookup "divide_two_numbers" = none → fix_code env s = s) ∧
    (∀ ns f, env.exec s.new_function_string = Except.ok ns →
      ns.lookup "divide_two_numbers" = some f →
      fix_code env s = { s with function := f, error := false }) := by
  refine ⟨?_, ?_, ?_⟩
  · intro err h
    simp [fix_code, h]
  · intro ns h1 h2
    simp [fix_code, h1, h2]
  · intro ns f h1 h2
    simp [fix_code, h1, h2]

/-- C4 witness: at c4State the namespace holds only add_numbers, the
divide_two_numbers lookup fails, and fix_code is the identity. -/
theorem fix_code_extraction_spec_witness : fix_code c4Env c4State = c4State :=
  (fix_code_extraction_spec c4Env c4State).2.1 [("add_numbers", addFn)] rfl rfl

/-- A nonnegative in-range index normalizes to itself. -/
theorem pyNorm_of_nonneg (len : Nat) (i : Int) (h0 : 0 ≤ i) (h1 : i < (len : Int)) :
    pyNorm len i = some i.toNat := by
  have hneg : ¬ i < 0 := by omega
  simp [pyNorm, hneg, h0, h1]

/-- A negative index with -len ≤ i normalizes to len + i. -/
theorem pyNorm_of_neg (len : Nat) (i : Int) (h0 : -(len : Int) ≤ i) (h1 : i < 0) :
    pyNorm len i = some ((len : Int) + i).toNat := by
  have hj0 : (0 : Int) ≤ i + len := by omega
  have hj1 : i + (len : Int) < len := by omega
  simp [pyNorm, h1, hj0, hj1]
  omega

/-- An index below -len or at or above len raises IndexError. -/
theorem pyNorm_out_of_range (len : Nat) (i : Int)
    (h : i < -(len : Int) ∨ (len : Int) ≤ i) : pyNorm len i = none := by
  by_cases hneg : i < 0
  · have hcond : ¬ ((0 : Int) ≤ i + len ∧ i + (len : Int) < len) := by omega
    simp [pyNorm, hneg] at hcond ⊢
    omega
  · have hcond : ¬ ((0 : Int) ≤ i ∧ i < (len : Int)) := by omega
    simp [pyNorm, hneg] at hcond ⊢
    omega

/-- C7: with a non-empty pending queue whose front is an in-range
index i, the memory-update node pops exactly that index, replaces the
record at position i, and leaves every other position and the length
of the memory store unchanged (operation and flag untouched too). -/
theorem memory_modification_in_range (env : Env) (s : State) (i : Int) (rest : List PyVal)
    (hq : s.memory_indexes_to_update = PyVal.pyInt i :: rest)
    (h0 : 0 ≤ i) (h1 : i < (s.memories.length : Int)) :
    ∃ t, memory_modification_node env s = some t ∧
      t.memory_indexes_to_update = rest ∧
      t.memories = s.memories.set i.toNat
        (env.modMemory s.bug_report (s.memories.getD i.toNat "")) ∧
      t.memories.length = s.memories.length ∧
      (∀ j, j ≠ i.toNat → t.memories[j]? = s.memories[j]?) ∧
      t.function = s.function ∧ t.error = s.error := by
  have hn := pyNorm_of_nonneg s.memories.length i h0 h1
  refine ⟨{ s with
            memory_indexes_to_update := rest
            memories := s.memories.set i.toNat
              (env.modMemory s.bug_report (s.memories.getD i.toNat "")) },
    ?_, rfl, rfl, ?_, ?_, rfl, rfl⟩
  · simp [memory_modification_node, hq, hn]
  · simp
  · intro j hj
    simp [List.getElem?_set_ne (fun he => hj he.symm)]

/-- A state whose queue holds the single in-range index 1. -/
def c7State : State :=
  { function := failFn
    function_string := "def divide_two_numbers(a, b): return a / b"
    arguments := [10, 0]
    error := true
    bug_report := "report"
    memories := ["m0", "m1", "m2"]
    memory_indexes_to_update := [PyVal.pyInt 1] }

/-- C7 witness: one invocation at c7State pops the single index and
rewrites only record 1. -/
theorem memory_modification_in_range_witness :
    ∃ t, memory_modification_node fixEnv c7State = some t ∧
      t.memory_indexes_to_update = [] ∧
      t.memories = c7State.memories.set (1 : Int).toNat
        (fixEnv.modMemory c7State.bug_report (c7State.memories.getD (1 : Int).toNat "")) ∧
      t.memories.length = c7State.memories.length ∧
      (∀ j, j ≠ (1 : Int).toNat → t.memories[j]? = c7State.memories[j]?) ∧
      t.function = c7State.function ∧ t.error = c7State.error :=
  memory_modification_in_range fixEnv c7State 1 [] rfl (by decide) (by decide)

/-- C10: a negative front index i with -len ≤ i ≤ -1 does not raise:
the node returns normally and replaces the record at len + i, counting
from the end. -/
theorem memory_modification_negative_index (env : Env) (s : State) (i : Int)
    (rest : List PyVal)
    (hq : s.memory_indexes_to_update = PyVal.pyInt i :: rest)
    (h0 : -(s.memories.length : Int) ≤ i) (h1 : i < 0) :
    ∃ t, memory_modification_node env s = some t ∧
      t.memory_indexes_to_update = rest ∧
      t.memories = s.memories.set ((s.memories.length : Int) + i).toNat
        (env.modMemory s.bug_report
          (s.memories.getD ((s.memories.length : Int) + i).toNat "")) := by
  have hn := pyNorm_of_neg s.memories.length i h0 h1
  refine ⟨{ s with
            memory_indexes_to_update := rest
            memories := s.memories.set ((s.memories.length : Int) + i).toNat
              (env.modMemory s.bug_report
                (s.memories.getD ((s.memories.length : Int) + i).toNat "")) },
    ?_, rfl, rfl⟩
  simp [memory_modification_node, hq, hn]

/-- A state whose queue holds the single negative index -1. -/
def c10State : State :=
  { function := failFn
    function_string := "def divide_two_numbers(a, b): return a / b"
    arguments := [10, 0]
    error := true
    bug_report := "report"
    memories := ["m0", "m1"]
    memory_indexes_to_update := [PyVal.pyInt (-1)] }

/-- C10 witness: index -1 on a two-record store rewrites record 1. -/
theorem memory_modification_negative_index_witness :
    ∃ t, memory_modification_node fixEnv c10State = some t ∧
      t.memory_indexes_to_update = [] ∧
      t.memories = c10State.memories.set
        ((c10State.memories.length : Int) + (-1)).toNat
        (fixEnv.modMemory c10State.bug_report
          (c10State.memories.getD ((c10State.memories.length : Int) + (-1)).toNat "")) :=
  memory_modification_negative_index fixEnv c10State (-1) [] rfl (by decide) (by decide)

/-- True when using v as an index into a list of the given length
raises: a non-integer (TypeError) or an integer outside the wraparound
range [-len, len) (IndexError). -/
def badFront (v : PyVal) (len : Nat) : Bool :=
  match v with
  | PyVal.pyInt i => decide (i < -(len : Int) ∨ (len : Int) ≤ i)
  | PyVal.pyNonInt _ => true

/-- C1 (amended): indices returned by memory search are stored without
validation; while the pending queue is non-empty the router always
picks the memory-modification node — never generation and without
clearing the queue — and a front value that is a non-integer or an
integer outside [-len, len) makes that node raise, so the exception
propagates out of the run. -/
theorem invalid_front_index_crashes (env : Env) (s : State) (v : PyVal)
    (rest : List PyVal)
    (hq : s.memory_indexes_to_update = v :: rest)
    (hbad : badFront v s.memories.length = true) :
    modification_router s = Next.node NodeId.memory_modification_node ∧
    memory_modification_node env s = none := by
  constructor
  · simp [modification_router, hq]
  · cases v with
    | pyNonInt tag => simp [memory_modification_node, hq]
    | pyInt i =>
      have hout : i < -(s.memories.length : Int) ∨ (s.memories.length : Int) ≤ i := by
        simpa [badFront] using hbad
      simp [memory_modification_node, hq, pyNorm_out_of_range _ _ hout]

/-- An Env whose memory search answers the out-of-range index 5. -/
def c1Env : Env :=
  { bugReport := fun _ _ => "bug report"
    searchIdx := fun _ _ => [PyVal.pyInt 5]
    genMemory := fun _ => "memory"
    modMemory := fun _ _ => "updated memory"
    fixFor := fun _ _ => "def divide_two_numbers(a, b): ..."
    exec := fun _ => Except.ok [("divide_two_numbers", goodFn)] }

/-- A one-record state about to run memory search. -/
def c1State : State :=
  { function := failFn
    function_string := "def divide_two_numbers(a, b): return a / b"
    arguments := [10, 0]
    error := true
    bug_report := "report"
    memories := ["m0"] }

/-- C1 counterexample: the search step stores the out-of-range index 5
against a one-record store; the queue is not emptied, the router picks
the modification node rather than generation, and that node raises
(the run crashes) instead of recovering. -/
theorem search_out_of_range_counterexample :
    (memory_search_node c1Env c1State).memory_indexes_to_update = [PyVal.pyInt 5] ∧
    modification_router (memory_search_node c1Env c1State) =
      Next.node NodeId.memory_modification_node ∧
    memory_modification_node c1Env (memory_search_node c1Env c1State) = none :=
  ⟨rfl, rfl, rfl⟩

/-- A one-record state whose queue already holds the invalid index 5. -/
def c1BadState : State :=
  { function := failFn
    function_string := "def divide_two_numbers(a, b): return a / b"
    arguments := [10, 0]
    error := true
    bug_report := "report"
    memories := ["m0"]
    memory_indexes_to_update := [PyVal.pyInt 5] }

/-- C1 witness: at c1BadState the router picks modification and the
node raises. -/
theorem invalid_front_index_crashes_witness :
    modification_router c1BadState = Next.node NodeId.memory_modification_node ∧
    memory_modification_node c1Env c1BadState = none :=
  invalid_front_index_crashes c1Env c1BadState (PyVal.pyInt 5) [] rfl (by decide)

/-- C5: from an initial state whose operation succeeds on the stored
arguments, the run ends after the single run_code superstep: the state
is returned unchanged, the router answers END, and the terminal state
is healthy (error false) with empty bug report and empty pending fix. -/
theorem immediate_success_terminates_at_once (env : Env) (f : Func) (fs : String)
    (args : List Int) (v : Int) (h : f args = Except.ok v) :
    runSteps env 1 (Next.node NodeId.run_code, initState f fs args) =
      some (Next.done, initState f fs args) ∧
    (initState f fs args).error = false ∧
    (initState f fs args).bug_report = "" ∧
    (initState f fs args).new_function_string = "" := by
  refine ⟨?_, rfl, rfl, rfl⟩
  simp [runSteps, step, run_code, initState, error_router, h]

/-- C5 witness: a succeeding callable ends the run in one superstep. -/
theorem immediate_success_terminates_at_once_witness :
    runSteps fixEnv 1
        (Next.node NodeId.run_code, initState okFn "def f(a, b): ..." [10, 2]) =
      some (Next.done, initState okFn "def f(a, b): ..." [10, 2]) ∧
    (initState okFn "def f(a, b): ..." [10, 2]).error = false ∧
    (initState okFn "def f(a, b): ..." [10, 2]).bug_report = "" ∧
    (initState okFn "def f(a, b): ..." [10, 2]).new_function_string = "" :=
  immediate_success_terminates_at_once fixEnv okFn "def f(a, b): ..." [10, 2] 7 rfl

/-- C8: the only transition into the memory-generation node is from the
memory-search node with an empty pending queue; whenever the queue is
non-empty after search, the router picks the memory-modification node. -/
theorem generation_only_when_queue_empty (env : Env) :
    (∀ k s nx t, step env k s = some (nx, t) →
      nx = Next.node NodeId.memory_generation_node →
      k = NodeId.memory_search_node ∧ t.memory_indexes_to_update = []) ∧
    (∀ s, (memory_search_node env s).memory_indexes_to_update ≠ [] →
      step env NodeId.memory_search_node s =
        some (Next.node NodeId.memory_modification_node, memory_search_node env s)) := by
  constructor
  · intro k s nx t hstep hgen
    subst hgen
    cases k with
    | run_code =>
      simp only [step, Option.some.injEq, Prod.mk.injEq] at hstep
      obtain ⟨h1, -⟩ := hstep
      unfold error_router at h1
      split at h1 <;> simp at h1
    | update_code =>
      simp only [step, Option.some.injEq, Prod.mk.injEq] at hstep
      obtain ⟨h1, -⟩ := hstep
      simp at h1
    | fix_code =>
      simp only [step, Option.some.injEq, Prod.mk.injEq] at hstep
      obtain ⟨h1, -⟩ := hstep
      simp at h1
    | bug_report_node =>
      simp only [step, Option.some.injEq, Prod.mk.injEq] at hstep
      obtain ⟨h1, -⟩ := hstep
      simp at h1
    | memory_generation_node =>
      simp only [step, Option.some.injEq, Prod.mk.injEq] at hstep
      obtain ⟨h1, -⟩ := hstep
      simp at h1
    | memory_modification_node =>
      simp only [step] at hstep
      cases hm : memory_modification_node env s with
      | none =>
        rw [hm] at hstep
        simp at hstep
      | some u =>
        rw [hm] at hstep
        simp only [Option.some.injEq, Prod.mk.injEq] at hstep
        obtain ⟨h1, -⟩ := hstep
        unfold update_memory at h1
        split at h1 <;> simp at h1
    | memory_search_node =>
      simp only [step, Option.some.injEq, Prod.mk.injEq] at hstep
      obtain ⟨h1, h2⟩ := hstep
      unfold modification_router at h1
      split at h1
      · simp at h1
      · rename_i hqe
        refine ⟨rfl, ?_⟩
        rw [← h2]
        simpa using hqe
  · intro s hne
    simp [step, modification_router, hne]

/-- C8 witness: at c1State under c1Env the search leaves a non-empty
queue and the step out of memory search enters the modification node. -/
theorem generation_only_when_queue_empty_witness :
    step c1Env NodeId.memory_search_node c1State =
      some (Next.node NodeId.memory_modification_node, memory_search_node c1Env c1State) :=
  (generation_only_when_queue_empty c1Env).2 c1State (by decide)

/-- An Env/argument pair under which no fix can repair the run: every
callable the fix loader can extract under the hardcoded name raises on
the given arguments. Nothing is assumed about the memory search. -/
def fixesKeepFailing (env : Env) (args : List Int) : Prop :=
  ∀ code ns f, env.exec code = Except.ok ns →
    ns.lookup "divide_two_numbers" = some f → ∃ e, f args = Except.error e

/-- Invariant of an always-failing run: the state keeps the original
argument list and its current operation raises on those arguments. -/
def aliveState (args : List Int) (s : State) : Prop :=
  s.arguments = args ∧ ∃ e, s.function args = Except.error e

/-- The memory-modification node never touches the current operation
or the argument list, whatever it does to memories and the queue. -/
theorem modification_preserves (env : Env) (s t : State)
    (h : memory_modification_node env s = some t) :
    t.function = s.function ∧ t.arguments = s.arguments := by
  cases hq : s.memory_indexes_to_update with
  | nil => simp [memory_modification_node, hq] at h
  | cons v rest =>
    cases v with
    | pyNonInt tag => simp [memory_modification_node, hq] at h
    | pyInt i =>
      cases hn : pyNorm s.memories.length i with
      | none => simp [memory_modification_node, hq, hn] at h
      | some j =>
        simp [memory_modification_node, hq, hn] at h
        subst h
        exact ⟨rfl, rfl⟩

/-- One superstep from an alive state either aborts in an uncaught
exception or reaches another interior node of an alive state — never
the terminal decision. -/
theorem step_not_done (env : Env) (args : List Int)
    (hk : fixesKeepFailing env args) (k : NodeId) (s : State)
    (h : aliveState args s) :
    step env k s = none ∨
      ∃ k2 t, step env k s = some (Next.node k2, t) ∧ aliveState args t := by
  obtain ⟨hargs, e, hfail⟩ := h
  cases k with
  | run_code =>
    have hf : s.function s.arguments = Except.error e := by rw [hargs]; exact hfail
    right
    refine ⟨NodeId.bug_report_node,
      { s with error := true, error_description := e }, ?_, hargs, e, hfail⟩
    simp [step, run_code, hf, error_router]
  | bug_report_node =>
    exact Or.inr ⟨NodeId.memory_search_node, bug_report_node env s,
      rfl, hargs, e, hfail⟩
  | memory_search_node =>
    right
    by_cases hq : (memory_search_node env s).memory_indexes_to_update ≠ []
    · exact ⟨NodeId.memory_modification_node, memory_search_node env s,
        by simp [step, modification_router, hq], hargs, e, hfail⟩
    · exact ⟨NodeId.memory_generation_node, memory_search_node env s,
        by simp [step, modification_router, hq], hargs, e, hfail⟩
  | memory_modification_node =>
    cases hm : memory_modification_node env s with
    | none =>
      left
      simp [step, hm]
    | some t =>
      right
      obtain ⟨hfn, hag⟩ := modification_preserves env s t hm
      by_cases hq : t.memory_indexes_to_update ≠ []
      · exact ⟨NodeId.memory_modification_node, t,
          by simp [step, hm, update_memory, hq],
          by rw [hag]; exact hargs, e, by rw [hfn]; exact hfail⟩
      · exact ⟨NodeId.update_code, t,
          by simp [step, hm, update_memory, hq],
          by rw [hag]; exact hargs, e, by rw [hfn]; exact hfail⟩
  | memory_generation_node =>
    exact Or.inr ⟨NodeId.update_code, memory_generation_node env s,
      rfl, hargs, e, hfail⟩
  | update_code =>
    exact Or.inr ⟨NodeId.fix_code, update_code env s,
      rfl, hargs, e, hfail⟩
  | fix_code =>
    cases hex : env.exec s.new_function_string with
    | error err =>
      have ht : fix_code env s = s := by simp [fix_code, hex]
      exact Or.inr ⟨NodeId.run_code, fix_code env s, rfl,
        by rw [ht]; exact hargs, e, by rw [ht]; exact hfail⟩
    | ok ns =>
      cases hl : ns.lookup "divide_two_numbers" with
      | none =>
        have ht : fix_code env s = s := by simp [fix_code, hex, hl]
        exact Or.inr ⟨NodeId.run_code, fix_code env s, rfl,
          by rw [ht]; exact hargs, e, by rw [ht]; exact hfail⟩
      | some f =>
        obtain ⟨e2, hf2⟩ := hk s.new_function_string ns f hex hl
        have ht : fix_code env s = { s with function := f, error := false } := by
          simp [fix_code, hex, hl]
        exact Or.inr ⟨NodeId.run_code, fix_code env s, rfl,
          by rw [ht]; exact hargs, e2, by rw [ht]; exact hf2⟩

/-- After any number of supersteps an always-failing run has either
aborted in an uncaught exception or sits at an interior node with an
alive state — it has not reached the terminal decision. -/
theorem run_not_done (env : Env) (args : List Int)
    (hk : fixesKeepFailing env args) :
    ∀ n k s, aliveState args s →
      runSteps env n (Next.node k, s) = none ∨
        ∃ k2 t, runSteps env n (Next.node k, s) = some (Next.node k2, t) ∧
          aliveState args t := by
  intro n
  induction n with
  | zero =>
    intro k s h
    exact Or.inr ⟨k, s, rfl, h⟩
  | succ m ih =>
    intro k s h
    rcases step_not_done env args hk k s h with hnone | ⟨k2, t, hstep, h2⟩
    · left
      simp [runSteps, hnone]
    · have hr : runSteps env (m + 1) (Next.node k, s) = runSteps env m (Next.node k2, t) := by
        simp only [runSteps, hstep]
      rw [hr]
      exact ih k2 t h2

/-- C2 (amended): the State carries no fix-attempt counter and no
maximum is configured; for every initial state whose operation raises
on the stored arguments and whose loadable fixes all raise as well,
the run never reaches Terminal: after any number of supersteps it is
either still at an interior node or has aborted in an uncaught
exception, never a terminal decision of any status. -/
theorem unbounded_repair_loop (env : Env) (s0 : State)
    (hk : fixesKeepFailing env s0.arguments)
    (hfail : ∃ e, s0.function s0.arguments = Except.error e) :
    ∀ n s, runSteps env n (Next.node NodeId.run_code, s0) ≠
      some (Next.done, s) := by
  intro n s hterm
  rcases run_not_done env s0.arguments hk n NodeId.run_code s0 ⟨rfl, hfail⟩ with
    hnone | ⟨k2, t, hr, -⟩
  · rw [hterm] at hnone
    simp at hnone
  · rw [hterm] at hr
    simp at hr

/-- A callable that raises on every invocation, including repaired. -/
def boomFn : Func := fun _ => Except.error "boom"

/-- An Env under which every loadable fix still raises and the search
finds nothing relevant. -/
def loopEnv : Env :=
  { bugReport := fun _ _ => "bug report"
    searchIdx := fun _ _ => []
    genMemory := fun _ => "memory"
    modMemory := fun _ _ => "updated memory"
    fixFor := fun _ _ => "def divide_two_numbers(a, b): ..."
    exec := fun _ => Except.ok [("divide_two_numbers", boomFn)] }

/-- The initial state of the always-failing run. -/
def loopInit : State :=
  initState boomFn "def divide_two_numbers(a, b): return a / b" [10, 0]

/-- Every fix loopEnv can load raises on the arguments [10, 0]. -/
theorem loopEnv_fixesKeepFailing : fixesKeepFailing loopEnv [10, 0] := by
  intro code ns f hex hl
  have hex2 : Except.ok [("divide_two_numbers", boomFn)] = Except.ok ns := hex
  injection hex2 with hns
  subst hns
  have hf : some boomFn = some f := hl
  injection hf with hf2
  refine ⟨"boom", ?_⟩
  rw [← hf2]
  rfl

/-- C2 counterexample: on the concrete always-failing input (operation
boomFn with arguments [10, 0] under loopEnv) the run never reaches
Terminal at all — there is no bound forcing an unresolved terminal
state after any number of supersteps. -/
theorem always_failing_run_never_terminates :
    ¬ ∃ n s, runSteps loopEnv n (Next.node NodeId.run_code, loopInit) =
      some (Next.done, s) := by
  rintro ⟨n, s, hterm⟩
  rcases run_not_done loopEnv [10, 0] loopEnv_fixesKeepFailing n
      NodeId.run_code loopInit ⟨rfl, ⟨"boom", rfl⟩⟩ with hnone | ⟨k2, t, hr, -⟩
  · rw [hterm] at hnone
    simp at hnone
  · rw [hterm] at hr
    simp at hr

/-- C2 witness: after 25 supersteps the always-failing run has not
reached the terminal decision. -/
theorem unbounded_repair_loop_witness :
    runSteps loopEnv 25 (Next.node NodeId.run_code, loopInit) ≠
      some (Next.done, loopInit) :=
  unbounded_repair_loop loopEnv loopInit loopEnv_fixesKeepFailing
    ⟨"boom", rfl⟩ 25 loopInit

end SelfHealing
